import Mathlib

/-!
Verification of the Signed-Token Analytics Client
(repository: apj-build-2024-slack-demo).

The development shallowly embeds the Python core:
* `Cortlayst.sanitize_host_name` and `Cortlayst.answer`
  (src/handler_tasks/cortalyst.py),
* `ask_cortex_analyst` and `show_response` (app.py),
* `load_rsa_public_key` and `get_key_fingerprint`
  (src/security/key_util.py).

Strings are modelled as `List Char`, bytes as `Nat` (each < 256 where it
matters), and external collaborators (HTTP layer, analytics engine,
chart renderer, Slack output) as explicit function parameters whose
invocations are recorded in event traces.
-/

namespace SlackDemo

/-! ## Host normalisation (`Cortlayst.sanitize_host_name`)

The Python source applies the regex `(?<=//)[^/]+(?=/|$)` with
`re.search` / `re.sub`:

* a match of that pattern is a nonempty maximal run of non-`'/'`
  characters whose two preceding characters are `"//"` (the greedy
  `[^/]+` together with the lookahead `(?=/|$)` forces maximality, the
  lookbehind `(?<=//)` forces the two slashes);
* `sanitize_host_name` replaces `'_'` by `'-'` inside every match, but
  only when the first match (found by `re.search`) contains an
  underscore; otherwise the URL is returned unchanged.

Splitting the URL at `'/'` gives segments `s₀, s₁, s₂, …`; a maximal
non-`'/'` run is a nonempty segment `sᵢ`, and it is preceded by `"//"`
exactly when `i ≥ 2` and `s_{i-1}` is empty.  The embedding below works
on that split decomposition. -/

/-- One character of the regex replacement `"_" → "-"`. -/
def repl (c : Char) : Char := if c = '_' then '-' else c

/-- Split a character list at every `'/'` (like Python `str.split("/")`):
always returns at least one (possibly empty) segment. -/
def splitSlash : List Char → List (List Char)
  | [] => [[]]
  | c :: cs =>
    match splitSlash cs with
    | [] => [[c]]
    | s :: ss => if c = '/' then [] :: s :: ss else (c :: s) :: ss

/-- Re-join segments with `'/'` (left inverse of `splitSlash`). -/
def joinSlash : List (List Char) → List Char
  | [] => []
  | [s] => s
  | s :: ss => s ++ '/' :: joinSlash ss

/-- The first regex match among the segments of index ≥ 2: the first
nonempty segment whose predecessor segment is empty.  `prevEmpty` says
whether the predecessor segment was empty. -/
def firstMatchSegs : Bool → List (List Char) → Option (List Char)
  | _, [] => none
  | prevEmpty, s :: rest =>
    if prevEmpty ∧ s ≠ [] then some s else firstMatchSegs s.isEmpty rest

/-- The effect of `re.sub` on the segments of index ≥ 2: rewrite `'_'` to `'-'` in
every nonempty segment whose predecessor segment is empty. -/
def subSegs : Bool → List (List Char) → List (List Char)
  | _, [] => []
  | prevEmpty, s :: rest =>
    (if prevEmpty ∧ s ≠ [] then s.map repl else s) :: subSegs s.isEmpty rest

/-- Embedding of `Cortlayst.sanitize_host_name` (cortalyst.py 68–99):
replace underscores with hyphens in every maximal non-`'/'` run preceded
by `"//"`, provided the first such run contains an underscore. -/
def sanitize_host_name (url : List Char) : List Char :=
  match splitSlash url with
  | s0 :: s1 :: rest =>
    match firstMatchSegs s1.isEmpty rest with
    | some m => if '_' ∈ m then joinSlash (s0 :: s1 :: subSegs s1.isEmpty rest) else url
    | none => url
  | _ => url

/-- Whether a character list contains two consecutive `'/'`
(a `"//"` substring). -/
def hasDoubleSlash : List Char → Bool
  | c :: d :: rest => (c = '/' && d = '/') || hasDoubleSlash (d :: rest)
  | _ => false

/-! ## Response dispatcher (`show_response`, app.py 462–539)

`show_response` iterates the content blocks of the envelope inside a
single `try`:

```python
for item in content:
    match item["type"]:
        case "sql":
            query = item["statement"]
            say(blocks=blocks.create_sql_block(query), text="Generated SQL")
            df = session.sql(query).to_pandas()
            say(blocks=blocks.create_df_block(df), text="Query Result")
            if len(df.columns) > 1:
                chart = alt.Chart(df).mark_arc().encode(theta="TICKET_COUNT", color="SERVICE_TYPE")
                ... chart.save(buffer, format="png") ...
                uploaded_file = client.files_upload_v2(...)
        case _:
            pass
except Exception as e:
    ... raise Exception(f"Error sending response \x7be\x7d")
```

The analytics engine (`session.sql(...).to_pandas()`) and the chart
pipeline (`alt.Chart ... chart.save ... files_upload_v2`) are external
collaborators, modelled as oracles that either succeed or raise.  Every
collaborator invocation is recorded as an `Event`; an exception anywhere
in the loop is caught by the single `except` and re-raised, recorded in
`DispatchResult.error`. -/

/-- A tabular result set (pandas DataFrame): named columns and rows.
Only the column list influences control flow (`len(df.columns) > 1`). -/
structure Frame where
  cols : List String
  rows : List (List String)
deriving DecidableEq

/-- One JSON content block of the response envelope.  `itype` is the
discriminator `item["type"]`; `text` and `statement` model the payload
keys of text and sql blocks (the dispatcher only ever reads
`item["statement"]`, and only for `"sql"` blocks). -/
structure Item where
  itype : String
  text : String
  statement : String
deriving DecidableEq

/-- Observable collaborator invocations of the dispatcher, in order:
* `saySql` — `say(blocks=blocks.create_sql_block(query), ...)`;
* `execSql` — `session.sql(query).to_pandas()` is invoked;
* `sayDf` — `say(blocks=blocks.create_df_block(df), ...)`;
* `chartAttempt` — the chart branch is entered: `alt.Chart(df).mark_arc()
  .encode(theta="TICKET_COUNT", color="SERVICE_TYPE")`, serialisation;
* `chartUpload` — `client.files_upload_v2(...)` succeeds;
* `sayText` — emission of a text block to the output collaborator.
  The source has no code path producing it (`case _: pass`): the
  constructor exists so its absence from traces can be stated. -/
inductive Event
  | saySql (statement : String)
  | execSql (statement : String)
  | sayDf (df : Frame)
  | chartAttempt (df : Frame)
  | chartUpload (df : Frame)
  | sayText (t : String)
deriving DecidableEq

/-- Outcome of `show_response`: collaborator invocations in order, and
the re-raised exception (`Exception(f"Error sending response \x7be\x7d")`)
if any collaborator raised. -/
structure DispatchResult where
  events : List Event
  error : Option String
deriving DecidableEq

/-- Embedding of `show_response` (app.py 486–539).
`execQ` models the analytics engine (`session.sql(query).to_pandas()`),
returning a `Frame` or raising; `chart` models chart construction,
PNG serialisation and Slack upload, returning `some msg` when any of
those raises (e.g. the hard-coded columns `TICKET_COUNT` /
`SERVICE_TYPE` are absent at render time) and `none` on success.
The Slack `say` calls themselves are modelled as non-failing. -/
def show_response (execQ : String → Except String Frame)
    (chart : Frame → Option String) : List Item → DispatchResult
  | [] => ⟨[], none⟩
  | item :: rest =>
    if item.itype = "sql" then
      let q := item.statement
      match execQ q with
      | .error e => ⟨[.saySql q, .execSql q], some ("Error sending response " ++ e)⟩
      | .ok df =>
        if 1 < df.cols.length then
          match chart df with
          | some e =>
            ⟨[.saySql q, .execSql q, .sayDf df, .chartAttempt df],
              some ("Error sending response " ++ e)⟩
          | none =>
            let r := show_response execQ chart rest
            ⟨[.saySql q, .execSql q, .sayDf df, .chartAttempt df, .chartUpload df]
              ++ r.events, r.error⟩
        else
          let r := show_response execQ chart rest
          ⟨[.saySql q, .execSql q, .sayDf df] ++ r.events, r.error⟩
    else
      show_response execQ chart rest

/-! ## Analyst client (`Cortlayst`, cortalyst.py) and the asking
pipeline (`ask_cortex_analyst`, app.py 404–459) -/

/-- The single HTTPS POST issued by `Cortlayst.answer`
(cortalyst.py 127–136): target URL, the text transmitted in
`payload["messages"][0]["content"][0]["text"]`, the
`semantic_model_file` reference, and the bearer token of the
`Authorization` header.  The three constant headers
(token-type marker, content type, accept type) are not modelled. -/
structure AnalystRequest where
  endpoint : List Char
  questionText : String
  semantic_model_file : String
  bearer : String
deriving DecidableEq

/-- The remote endpoint's reply as seen by `Cortlayst.answer`:
HTTP status, raw body text (`resp.text`), the
`X-Snowflake-Request-Id` header, and the content blocks of the parsed
JSON body (`resp.json()["message"]["content"]`, only consulted on
status 200). -/
structure HttpResponse where
  status : Nat
  body : String
  requestId : Option String
  content : List Item
deriving DecidableEq

/-- The exception raised at cortalyst.py 143–145 on a non-200 status:
`Exception(f"Failed request (id: \x7brequest_id\x7d) with status
\x7bresp.status_code\x7d: \x7bresp.text\x7d")`.  The structure records the
three data embedded verbatim in that message. -/
structure AnswerError where
  status : Nat
  requestId : Option String
  body : String
deriving DecidableEq

/-- The message string of the exception raised at cortalyst.py 143–145
(`f"Failed request (id: \x7brequest_id\x7d) with status \x7bstatus\x7d:
\x7bbody\x7d"`; a `None` request id prints as `"None"`). -/
def answerErrorMessage (e : AnswerError) : String :=
  "Failed request (id: " ++ (match e.requestId with | some r => r | none => "None")
    ++ ") with status " ++ toString e.status ++ ": " ++ e.body

/-- The state of a `Cortlayst` instance (cortalyst.py 34–56) that the
answer flow reads: the semantic-model coordinates and the mutable
`analyst_endpoint`.  (`account`, `user` and the `JWTGenerator` only feed
token generation, whose source is outside this repository; the token is
an oracle parameter below.) -/
structure Cortlayst where
  database : String
  schema : String
  stage : String
  file : String
  analyst_endpoint : List Char
deriving DecidableEq

/-- Embedding of `Cortlayst.__init__` (cortalyst.py 34–56) with the default
semantic-model coordinates:
`analyst_endpoint = f"https://\x7bhost\x7d/api/v2/cortex/analyst/message"`. -/
def Cortlayst.init (host : List Char) : Cortlayst :=
  { database := "slack_demo"
    schema := "data"
    stage := "semantic_models"
    file := "support_tickets_semantic_model.yaml"
    analyst_endpoint := "https://".toList ++ host ++ "/api/v2/cortex/analyst/message".toList }

/-- Outcome of `Cortlayst.answer`: the HTTP POSTs issued (in order), the
returned envelope content with the `request_id` header, or the raised
exception; plus the instance state after the call (`answer` reassigns
`self.analyst_endpoint` in place, cortalyst.py 122). -/
structure AnswerResult where
  requests : List AnalystRequest
  result : Except AnswerError (List Item × Option String)
  state : Cortlayst

/-- The single POST that `Cortlayst.answer` issues (cortalyst.py
111–136): the payload text is the `question` argument verbatim, the
semantic-model reference is
`f"@\x7bdatabase\x7d.\x7bschema\x7d.\x7bstage\x7d/\x7bfile\x7d"`, and the
target is the freshly re-normalised endpoint. -/
def answerReq (token : String) (self : Cortlayst) (question : String) : AnalystRequest :=
  { endpoint := sanitize_host_name self.analyst_endpoint
    questionText := question
    semantic_model_file := "@" ++ self.database ++ "." ++ self.schema ++ "."
      ++ self.stage ++ "/" ++ self.file
    bearer := token }

/-- Embedding of `Cortlayst.answer` (cortalyst.py 101–145).
`http` is the HTTP layer (`requests.post`), `token` the JWT obtained
from `self.get_token()` (token generation lives outside this
repository).  The payload text is built from `question` verbatim; the
stored endpoint is re-normalised in place before the single POST; a
200 response yields the parsed content and request id, any other status
raises with status, request id and body. -/
def Cortlayst.answer (http : AnalystRequest → HttpResponse) (token : String)
    (self : Cortlayst) (question : String) : AnswerResult :=
  let req := answerReq token self question
  let resp := http req
  ⟨[req],
    if resp.status = 200 then .ok (resp.content, resp.requestId)
    else .error ⟨resp.status, resp.requestId, resp.body⟩,
    { self with analyst_endpoint := sanitize_host_name self.analyst_endpoint }⟩

/-- Python `str.splitlines` restricted to the line boundaries
`"\n"`, `"\r"` and `"\r\n"` (the rare additional Unicode boundaries
recognised by Python are not modelled).  The accumulator holds the
current line reversed. -/
def splitlinesAux (acc : List Char) : List Char → List (List Char)
  | [] => [acc.reverse]
  | '\r' :: '\n' :: rest =>
    acc.reverse :: (if rest.isEmpty then [] else splitlinesAux [] rest)
  | c :: rest =>
    if c = '\n' ∨ c = '\r' then
      acc.reverse :: (if rest.isEmpty then [] else splitlinesAux [] rest)
    else
      splitlinesAux (c :: acc) rest

/-- Python `str.splitlines`: the empty string has no lines. -/
def splitlines (s : List Char) : List (List Char) :=
  if s.isEmpty then [] else splitlinesAux [] s

/-- The value `" ".join(question.splitlines())` (app.py 427): the sanitised
question that `ask_cortex_analyst` computes. -/
def sanitize_question (q : String) : String :=
  String.mk (List.intercalate [' '] (splitlines q.toList))

/-- Outcome of `ask_cortex_analyst` (app.py 404–459): the sanitised
question it computes (used only in a debug log), the HTTP requests
issued by `Cortlayst.answer`, the dispatch outcome of `show_response`
(`none` when `answer` raised, so the dispatcher never ran), and the
exception propagated out of `answer`, if any.  The preliminary
"wait a few seconds" Slack notice (app.py 432) is chat-glue outside the
dispatcher's output operations and is not recorded. -/
structure AskResult where
  sanitized : String
  requests : List AnalystRequest
  dispatched : Option DispatchResult
  raised : Option AnswerError
deriving DecidableEq

/-- Embedding of `ask_cortex_analyst` (app.py 404–459): computes the
sanitised question, then calls `cortalyst.answer(question)` — with the
original, unsanitised `question` (app.py 449) — and on success feeds
`ans["message"]["content"]` to `show_response`.  An exception from
`answer` propagates (re-raised at app.py 459) and the dispatcher is
never invoked. -/
def ask_cortex_analyst (http : AnalystRequest → HttpResponse) (token : String)
    (execQ : String → Except String Frame) (chart : Frame → Option String)
    (cort : Cortlayst) (question : String) : AskResult :=
  let sanitized := sanitize_question question
  let a := Cortlayst.answer http token cort question
  match a.result with
  | .error e => ⟨sanitized, a.requests, none, some e⟩
  | .ok (content, _) => ⟨sanitized, a.requests, some (show_response execQ chart content), none⟩

/-! ## Key fingerprint service (src/security/key_util.py)

`get_key_fingerprint` serialises an RSA public key to DER
SubjectPublicKeyInfo and returns `hashlib.sha256(der).hexdigest()`.
Bytes are modelled as `Nat` (each < 256 where produced); SHA-256 is
implemented per FIPS 180-4 on 32-bit words modelled as `Nat` reduced
modulo `2 ^ 32`. -/

/-- Reduction to a 32-bit word. -/
def w32 (n : Nat) : Nat := n % 4294967296

/-- Right rotation of a 32-bit word. -/
def rotr (n x : Nat) : Nat := w32 ((x >>> n) ||| (x <<< (32 - n)))

/-- Complement of a 32-bit word (input assumed < 2^32). -/
def comp32 (x : Nat) : Nat := x ^^^ 4294967295

/-- SHA-256 `Ch`. -/
def sch (x y z : Nat) : Nat := (x &&& y) ^^^ (comp32 x &&& z)

/-- SHA-256 `Maj`. -/
def smaj (x y z : Nat) : Nat := (x &&& y) ^^^ (x &&& z) ^^^ (y &&& z)

/-- SHA-256 `Σ₀`. -/
def bsig0 (x : Nat) : Nat := rotr 2 x ^^^ rotr 13 x ^^^ rotr 22 x

/-- SHA-256 `Σ₁`. -/
def bsig1 (x : Nat) : Nat := rotr 6 x ^^^ rotr 11 x ^^^ rotr 25 x

/-- SHA-256 `σ₀`. -/
def ssig0 (x : Nat) : Nat := rotr 7 x ^^^ rotr 18 x ^^^ (x >>> 3)

/-- SHA-256 `σ₁`. -/
def ssig1 (x : Nat) : Nat := rotr 17 x ^^^ rotr 19 x ^^^ (x >>> 10)

/-- The 64 SHA-256 round constants of FIPS 180-4 §4.2.2 (the first 32
bits of the fractional parts of the cube roots of the first 64 primes;
the standard lists them in hex, 0x428a2f98 … 0xc67178f2 — written here
in decimal). -/
def sha256K : List Nat :=
  [1116352408, 1899447441, 3049323471, 3921009573, 961987163, 1508970993,
   2453635748, 2870763221, 3624381080, 310598401, 607225278, 1426881987,
   1925078388, 2162078206, 2614888103, 3248222580, 3835390401, 4022224774,
   264347078, 604807628, 770255983, 1249150122, 1555081692, 1996064986,
   2554220882, 2821834349, 2952996808, 3210313671, 3336571891, 3584528711,
   113926993, 338241895, 666307205, 773529912, 1294757372, 1396182291,
   1695183700, 1986661051, 2177026350, 2456956037, 2730485921, 2820302411,
   3259730800, 3345764771, 3516065817, 3600352804, 4094571909, 275423344,
   430227734, 506948616, 659060556, 883997877, 958139571, 1322822218,
   1537002063, 1747873779, 1955562222, 2024104815, 2227730452, 2361852424,
   2428436474, 2756734187, 3204031479, 3329325298]

/-- Working state of the SHA-256 compression function. -/
structure Sha256State where
  a : Nat
  b : Nat
  c : Nat
  d : Nat
  e : Nat
  f : Nat
  g : Nat
  h : Nat

/-- The SHA-256 initial hash value of FIPS 180-4 §5.3.3
(0x6a09e667 … 0x5be0cd19, written in decimal). -/
def sha256H0 : Sha256State :=
  ⟨1779033703, 3144134277, 1013904242, 2773480762,
   1359893119, 2600822924, 528734635, 1541459225⟩

/-- Big-endian word value of a byte chunk (also the DER base-256
content value used by the parser below). -/
def bytesToNatBE (l : List Nat) : Nat := l.foldl (fun acc b => acc * 256 + b) 0

/-- Split a list into chunks of `n` elements (the last chunk may be
shorter); `n ≥ 1` is assumed (callers use 4 and 64). -/
def chunksBy (n : Nat) : List α → List (List α)
  | [] => []
  | a :: l => (a :: l.take (n - 1)) :: chunksBy n (l.drop (n - 1))
termination_by l => l.length
decreasing_by
  simp only [List.length_drop, List.length_cons]
  omega

/-- Message-schedule extension: `acc` holds the schedule so far,
reversed, so `acc[0] = w[i-1]`, `acc[1] = w[i-2]`, ….  Each step adds
`w[i] = σ₁(w[i-2]) + w[i-7] + σ₀(w[i-15]) + w[i-16] mod 2^32`. -/
def scheduleAux : Nat → List Nat → List Nat
  | 0, acc => acc
  | k + 1, acc =>
    scheduleAux k
      (w32 (ssig1 (acc.getD 1 0) + acc.getD 6 0 + ssig0 (acc.getD 14 0) + acc.getD 15 0) :: acc)

/-- The 64-entry message schedule of one 16-word block. -/
def schedule (ws : List Nat) : List Nat := (scheduleAux 48 ws.reverse).reverse

/-- One SHA-256 round. -/
def sha256Round (st : Sha256State) (k w : Nat) : Sha256State :=
  let t1 := w32 (st.h + bsig1 st.e + sch st.e st.f st.g + k + w)
  let t2 := w32 (bsig0 st.a + smaj st.a st.b st.c)
  ⟨w32 (t1 + t2), st.a, st.b, st.c, w32 (st.d + t1), st.e, st.f, st.g⟩

/-- SHA-256 compression of one 64-byte block. -/
def sha256Compress (st : Sha256State) (block : List Nat) : Sha256State :=
  let ws := schedule ((chunksBy 4 block).map bytesToNatBE)
  let t := (sha256K.zip ws).foldl (fun s kw => sha256Round s kw.1 kw.2) st
  ⟨w32 (st.a + t.a), w32 (st.b + t.b), w32 (st.c + t.c), w32 (st.d + t.d),
   w32 (st.e + t.e), w32 (st.f + t.f), w32 (st.g + t.g), w32 (st.h + t.h)⟩

/-- A 64-bit value as 8 big-endian bytes (SHA-256 length field). -/
def be8 (n : Nat) : List Nat :=
  [n / 72057594037927936 % 256, n / 281474976710656 % 256, n / 1099511627776 % 256,
   n / 4294967296 % 256, n / 16777216 % 256, n / 65536 % 256, n / 256 % 256, n % 256]

/-- SHA-256 padding: append `0x80`, zeros to 56 mod 64, and the
bit length as 8 big-endian bytes. -/
def sha256Pad (m : List Nat) : List Nat :=
  m ++ 128 :: List.replicate ((119 - m.length % 64) % 64) 0 ++ be8 (8 * m.length)

/-- A 32-bit word as 4 big-endian bytes. -/
def wordBytes (x : Nat) : List Nat := [x / 16777216 % 256, x / 65536 % 256, x / 256 % 256, x % 256]

/-- The 32-byte digest of a final SHA-256 state. -/
def digestBytes (st : Sha256State) : List Nat :=
  wordBytes st.a ++ wordBytes st.b ++ wordBytes st.c ++ wordBytes st.d ++
    wordBytes st.e ++ wordBytes st.f ++ wordBytes st.g ++ wordBytes st.h

/-- SHA-256 of a byte string (`hashlib.sha256(...).digest()`). -/
def sha256 (m : List Nat) : List Nat :=
  digestBytes ((chunksBy 64 (sha256Pad m)).foldl sha256Compress sha256H0)

/-- Lowercase hexadecimal digit. -/
def hexChar (n : Nat) : Char := if n < 10 then Char.ofNat (48 + n) else Char.ofNat (87 + n)

/-- Lowercase hexadecimal rendering of a byte string
(Python `hexdigest()`). -/
def toHexLower (bs : List Nat) : List Char := (bs.map fun b => [hexChar (b / 16), hexChar (b % 16)]).flatten

/-- An RSA public key: modulus and public exponent (the data that
determines the key's `SubjectPublicKeyInfo` serialisation). -/
structure RSAPublicKey where
  n : Nat
  e : Nat
deriving DecidableEq

/-- Minimal big-endian base-256 digits of a natural number
(`[]` for 0). -/
def natBytesBE : Nat → List Nat
  | 0 => []
  | n + 1 => natBytesBE ((n + 1) / 256) ++ [(n + 1) % 256]
decreasing_by exact Nat.div_lt_self (Nat.succ_pos n) (by omega)

/-- DER INTEGER content octets of a nonnegative integer: minimal
big-endian bytes, `[0]` for zero, a leading zero octet when the top bit
is set. -/
def intBytes (x : Nat) : List Nat :=
  if x = 0 then [0]
  else if 128 ≤ (natBytesBE x).headD 0 then 0 :: natBytesBE x else natBytesBE x

/-- DER length octets: short form below 128, else long form
`(0x80 + k)` followed by the `k` minimal base-256 digits. -/
def lenEnc (n : Nat) : List Nat :=
  if n < 128 then [n] else (128 + (natBytesBE n).length) :: natBytesBE n

/-- A DER TLV: tag, length octets, content octets. -/
def tlv (tag : Nat) (content : List Nat) : List Nat :=
  tag :: lenEnc content.length ++ content

/-- DER INTEGER of a nonnegative integer. -/
def derInt (x : Nat) : List Nat := tlv 2 (intBytes x)

/-- The DER `AlgorithmIdentifier` for rsaEncryption:
`SEQUENCE { OID 1.2.840.113549.1.1.1, NULL }`. -/
def rsaAlgId : List Nat :=
  [0x30, 0x0d, 0x06, 0x09, 0x2a, 0x86, 0x48, 0x86, 0xf7, 0x0d, 0x01, 0x01, 0x01, 0x05, 0x00]

/-- DER `SubjectPublicKeyInfo` of an RSA public key:
`SEQUENCE { AlgorithmIdentifier, BIT STRING { SEQUENCE { INTEGER n,
INTEGER e } } }` (the BIT STRING has zero unused bits).  This is the
byte string produced by
`public_key.public_bytes(Encoding.DER, PublicFormat.SubjectPublicKeyInfo)`
(key_util.py 49–52). -/
def derSPKI (k : RSAPublicKey) : List Nat :=
  tlv 0x30 (rsaAlgId ++ tlv 3 (0 :: tlv 0x30 (derInt k.n ++ derInt k.e)))

/-- Embedding of `get_key_fingerprint` (key_util.py 38–56):
`hashlib.sha256(der_spki).hexdigest()`. -/
def get_key_fingerprint (public_key : RSAPublicKey) : List Char :=
  toHexLower (sha256 (derSPKI public_key))

/-- Embedding of `match_fingerprints` (key_util.py 59–74): plain string
equality of the two fingerprints. -/
def match_fingerprints (fp1 fp2 : List Char) : Bool := fp1 = fp2

/-! ### DER parser, used to establish injectivity of `derSPKI` -/

/-- Parse DER length octets, returning the length and the remainder. -/
def parseLen : List Nat → Option (Nat × List Nat)
  | [] => none
  | b :: rest =>
    if b < 128 then some (b, rest)
    else if b - 128 ≤ rest.length then
      some (bytesToNatBE (rest.take (b - 128)), rest.drop (b - 128))
    else none

/-- Parse a DER TLV with the given tag, returning content and
remainder. -/
def parseTLV (tag : Nat) : List Nat → Option (List Nat × List Nat)
  | [] => none
  | t :: rest =>
    if t = tag then
      match parseLen rest with
      | some (n, rest2) =>
        if n ≤ rest2.length then some (rest2.take n, rest2.drop n) else none
      | none => none
    else none

/-- Parse a DER INTEGER, returning its nonnegative value and the
remainder. -/
def parseInt (l : List Nat) : Option (Nat × List Nat) :=
  match parseTLV 2 l with
  | some (c, rest) => some (bytesToNatBE c, rest)
  | none => none

/-- Parse a DER RSA `SubjectPublicKeyInfo`, recovering the modulus and
exponent (partial inverse of `derSPKI`). -/
def parseSPKI (l : List Nat) : Option RSAPublicKey :=
  match parseTLV 0x30 l with
  | some (body, rest) =>
    if rest = [] ∧ body.take 15 = rsaAlgId then
      match parseTLV 3 (body.drop 15) with
      | some (0 :: inner, []) =>
        match parseTLV 0x30 inner with
        | some (c, []) =>
          match parseInt c with
          | some (n, r) =>
            match parseInt r with
            | some (e, []) => some ⟨n, e⟩
            | _ => none
          | none => none
        | _ => none
      | _ => none
    else none
  | none => none

/-! ### `load_rsa_public_key` (key_util.py 8–35)

The function's declared signature accepts `Union[Path | str]`; at run
time it branches on `isinstance(key, Path)` and otherwise evaluates
`bytes(key)`.  In Python 3, `bytes(s)` for a `str` raises
`TypeError("string argument without an encoding")`; that conversion
sits outside the `try`, so the `TypeError` propagates.  PEM parsing
(`serialization.load_pem_public_key`, an external library) and the
filesystem are oracles. -/

/-- The run-time type of the argument passed to `load_rsa_public_key`:
a `pathlib.Path`, a `str` (raw PEM text), or `bytes`. -/
inductive KeySource
  | path (p : String)
  | str (s : String)
  | bytes (b : List Nat)

/-- The Python exceptions `load_rsa_public_key` can raise. -/
inductive PyError
  | typeError (msg : String)
  | valueError (msg : String)
  | fileNotFoundError (p : String)
deriving DecidableEq

/-- Result of `serialization.load_pem_public_key`: an RSA key, some
other kind of public key, or a parse failure message. -/
inductive PemResult
  | rsa (k : RSAPublicKey)
  | otherKey
  | failure (msg : String)

/-- The `try` block of key_util.py 29–35: parse PEM, reject non-RSA
keys; any exception is re-raised as
`ValueError(f"Failed to load public key: \x7be\x7d")`. -/
def loadPemChecked (parsePem : List Nat → PemResult) (data : List Nat) :
    Except PyError RSAPublicKey :=
  match parsePem data with
  | .rsa k => .ok k
  | .otherKey => .error (.valueError "Failed to load public key: Not an RSA public key")
  | .failure msg => .error (.valueError ("Failed to load public key: " ++ msg))

/-- Embedding of `load_rsa_public_key` (key_util.py 8–35).  `fs` models
`open(key, "rb").read()` (`none` means the path does not exist, so
`open` raises `FileNotFoundError`). -/
def load_rsa_public_key (fs : String → Option (List Nat))
    (parsePem : List Nat → PemResult) : KeySource → Except PyError RSAPublicKey
  | .path p =>
    match fs p with
    | some data => loadPemChecked parsePem data
    | none => .error (.fileNotFoundError p)
  | .str _ => .error (.typeError "string argument without an encoding")
  | .bytes b => loadPemChecked parsePem b

/-! ## Lemmas on the host-normalisation embedding -/

theorem splitSlash_ne_nil (l : List Char) : splitSlash l ≠ [] := by
  cases l with
  | nil => simp [splitSlash]
  | cons c cs =>
    simp only [splitSlash]
    cases splitSlash cs with
    | nil => simp
    | cons s ss => by_cases hc : c = '/' <;> simp [hc]

theorem splitSlash_cons_slash (cs : List Char) : splitSlash ('/' :: cs) = [] :: splitSlash cs := by
  simp only [splitSlash]
  cases h : splitSlash cs with
  | nil => exact absurd h (splitSlash_ne_nil cs)
  | cons s ss => simp

theorem splitSlash_cons_ne {c : Char} (cs : List Char) (hc : c ≠ '/') {s : List Char}
    {ss : List (List Char)} (h : splitSlash cs = s :: ss) :
    splitSlash (c :: cs) = (c :: s) :: ss := by
  simp only [splitSlash, h]
  simp [hc]

theorem splitSlash_no_slash (l : List Char) : ∀ s ∈ splitSlash l, '/' ∉ s := by
  induction l with
  | nil => simp [splitSlash]
  | cons c cs ih =>
    cases h : splitSlash cs with
    | nil => exact absurd h (splitSlash_ne_nil cs)
    | cons s ss =>
      have hs : '/' ∉ s := ih s (h ▸ List.mem_cons_self s ss)
      have hss : ∀ t ∈ ss, '/' ∉ t := fun t ht => ih t (h ▸ List.mem_cons_of_mem s ht)
      by_cases hc : c = '/'
      · subst hc
        rw [splitSlash_cons_slash]
        intro t ht
        rcases List.mem_cons.mp ht with rfl | ht2
        · simp
        · rw [h] at ht2
          rcases List.mem_cons.mp ht2 with rfl | ht3
          · exact hs
          · exact hss t ht3
      · rw [splitSlash_cons_ne cs hc h]
        intro t ht
        rcases List.mem_cons.mp ht with rfl | ht2
        · intro hm
          rcases List.mem_cons.mp hm with h1 | h2
          · exact hc h1.symm
          · exact hs h2
        · exact hss t ht2

theorem splitSlash_eq_single {s : List Char} (h : '/' ∉ s) : splitSlash s = [s] := by
  induction s with
  | nil => rfl
  | cons c cs ih =>
    have hc : c ≠ '/' := fun e => h (e ▸ List.mem_cons_self c cs)
    have hcs : '/' ∉ cs := fun m => h (List.mem_cons_of_mem c m)
    exact splitSlash_cons_ne cs hc (ih hcs)

theorem splitSlash_append {a : List Char} (l : List Char) (h : '/' ∉ a) :
    splitSlash (a ++ '/' :: l) = a :: splitSlash l := by
  induction a with
  | nil => simpa using splitSlash_cons_slash l
  | cons c a ih =>
    have hc : c ≠ '/' := fun e => h (e ▸ List.mem_cons_self c a)
    have ha : '/' ∉ a := fun m => h (List.mem_cons_of_mem c m)
    rw [List.cons_append, splitSlash_cons_ne (a ++ '/' :: l) hc (ih ha)]

theorem joinSlash_cons_cons (a b : List Char) (rest : List (List Char)) :
    joinSlash (a :: b :: rest) = a ++ '/' :: joinSlash (b :: rest) := by
  rfl

theorem joinSlash_splitSlash (l : List Char) : joinSlash (splitSlash l) = l := by
  induction l with
  | nil => rfl
  | cons c cs ih =>
    cases h : splitSlash cs with
    | nil => exact absurd h (splitSlash_ne_nil cs)
    | cons s ss =>
      rw [h] at ih
      by_cases hc : c = '/'
      · subst hc
        rw [splitSlash_cons_slash, h, joinSlash_cons_cons, List.nil_append, ih]
      · rw [splitSlash_cons_ne cs hc h]
        cases ss with
        | nil =>
          simp only [joinSlash] at ih ⊢
          rw [ih]
        | cons t ts =>
          rw [joinSlash_cons_cons] at ih
          rw [joinSlash_cons_cons, List.cons_append, ih]

theorem splitSlash_joinSlash :
    ∀ segs : List (List Char), segs ≠ [] → (∀ s ∈ segs, '/' ∉ s) →
      splitSlash (joinSlash segs) = segs
  | [], h, _ => absurd rfl h
  | [s], _, hs => by
    simp only [joinSlash]
    exact splitSlash_eq_single (hs s (List.mem_cons_self s []))
  | s :: t :: ss, _, hs => by
    rw [joinSlash_cons_cons, splitSlash_append _ (hs s (List.mem_cons_self s (t :: ss))),
      splitSlash_joinSlash (t :: ss) (by simp)
        (fun x hx => hs x (List.mem_cons_of_mem s hx))]

theorem repl_ne_underscore (c : Char) : repl c ≠ '_' := by
  unfold repl
  split <;> simp_all

theorem not_underscore_mem_map_repl (s : List Char) : '_' ∉ s.map repl := by
  intro h
  rcases List.mem_map.mp h with ⟨c, _, hc⟩
  exact repl_ne_underscore c hc

theorem map_repl_no_slash {s : List Char} (h : '/' ∉ s) : '/' ∉ s.map repl := by
  intro hm
  rcases List.mem_map.mp hm with ⟨c, hc, he⟩
  have : c = '/' := by
    by_cases hu : c = '_'
    · rw [hu] at he; simp [repl] at he
    · simpa [repl, hu] using he
  exact h (this ▸ hc)

theorem firstMatchSegs_subSegs (rest : List (List Char)) :
    ∀ b, firstMatchSegs b (subSegs b rest) = (firstMatchSegs b rest).map (List.map repl) := by
  induction rest with
  | nil => intro b; rfl
  | cons s rs ih =>
    intro b
    by_cases hb : (b : Prop) ∧ s ≠ []
    · have hmap : s.map repl ≠ [] := by
        simpa using hb.2
      simp only [subSegs, firstMatchSegs, if_pos hb, if_pos (And.intro hb.1 hmap)]
      rfl
    · simp only [subSegs, firstMatchSegs, if_neg hb]
      exact ih s.isEmpty

theorem subSegs_no_slash {rest : List (List Char)} (h : ∀ s ∈ rest, '/' ∉ s) :
    ∀ b, ∀ s ∈ subSegs b rest, '/' ∉ s := by
  induction rest with
  | nil => intro b s hs; simp [subSegs] at hs
  | cons t ts ih =>
    intro b s hs
    simp only [subSegs] at hs
    rcases List.mem_cons.mp hs with rfl | hs2
    · split
      · exact map_repl_no_slash (h t (List.mem_cons_self t ts))
      · exact h t (List.mem_cons_self t ts)
    · exact ih (fun x hx => h x (List.mem_cons_of_mem t hx)) t.isEmpty s hs2

theorem sanitize_eq_of_split {url s0 s1 : List Char} {rest : List (List Char)}
    (h : splitSlash url = s0 :: s1 :: rest) :
    sanitize_host_name url =
      match firstMatchSegs s1.isEmpty rest with
      | some m => if '_' ∈ m then joinSlash (s0 :: s1 :: subSegs s1.isEmpty rest) else url
      | none => url := by
  unfold sanitize_host_name
  rw [h]

theorem sanitize_host_name_idem (url : List Char) :
    sanitize_host_name (sanitize_host_name url) = sanitize_host_name url := by
  rcases h : splitSlash url with _ | ⟨s0, _ | ⟨s1, rest⟩⟩
  · have e : sanitize_host_name url = url := by unfold sanitize_host_name; rw [h]
    rw [e]; exact e
  · have e : sanitize_host_name url = url := by unfold sanitize_host_name; rw [h]
    rw [e]; exact e
  · rcases hm : firstMatchSegs s1.isEmpty rest with _ | m
    · have e : sanitize_host_name url = url := by
        rw [sanitize_eq_of_split h, hm]
      rw [e]; exact e
    · by_cases hu : '_' ∈ m
      · have e : sanitize_host_name url = joinSlash (s0 :: s1 :: subSegs s1.isEmpty rest) := by
          rw [sanitize_eq_of_split h, hm]
          exact if_pos hu
        have hns : ∀ s ∈ s0 :: s1 :: subSegs s1.isEmpty rest, '/' ∉ s := by
          intro s hs
          rcases List.mem_cons.mp hs with rfl | hs2
          · exact splitSlash_no_slash url s (h ▸ List.mem_cons_self s (s1 :: rest))
          · rcases List.mem_cons.mp hs2 with rfl | hs3
            · exact splitSlash_no_slash url s
                (h ▸ List.mem_cons_of_mem s0 (List.mem_cons_self s rest))
            · exact subSegs_no_slash
                (fun t ht => splitSlash_no_slash url t
                  (h ▸ List.mem_cons_of_mem s0 (List.mem_cons_of_mem s1 ht)))
                s1.isEmpty s hs3
        have hsp : splitSlash (joinSlash (s0 :: s1 :: subSegs s1.isEmpty rest))
            = s0 :: s1 :: subSegs s1.isEmpty rest :=
          splitSlash_joinSlash _ (by simp) hns
        rw [e, sanitize_eq_of_split hsp, firstMatchSegs_subSegs, hm]
        simp only [Option.map_some']
        rw [if_neg (not_underscore_mem_map_repl m)]
      · have e : sanitize_host_name url = url := by
          rw [sanitize_eq_of_split h, hm]
          exact if_neg hu
        rw [e]; exact e

/-! ## Lemmas on `hasDoubleSlash` and tails without double slashes -/

theorem hasDoubleSlash_two (c d : Char) (rest : List Char) :
    hasDoubleSlash (c :: d :: rest) = ((c = '/' && d = '/') || hasDoubleSlash (d :: rest)) := by
  rfl

theorem hasDoubleSlash_tail {c : Char} {l : List Char}
    (h : hasDoubleSlash (c :: l) = false) : hasDoubleSlash l = false := by
  cases l with
  | nil => rfl
  | cons d t =>
    rw [hasDoubleSlash_two] at h
    exact (Bool.or_eq_false_iff.mp h).2

theorem hasDoubleSlash_append_right {a b : List Char}
    (h : hasDoubleSlash (a ++ b) = false) : hasDoubleSlash b = false := by
  induction a with
  | nil => exact h
  | cons c t ih => exact ih (hasDoubleSlash_tail h)

theorem hasDoubleSlash_slash_cons {v : List Char}
    (h : hasDoubleSlash ('/' :: v) = false) : ∀ w, v ≠ '/' :: w := by
  intro w hw
  subst hw
  rw [hasDoubleSlash_two] at h
  simp at h

theorem firstSlashDecomp (u : List Char) :
    '/' ∉ u ∨ ∃ a v, u = a ++ '/' :: v ∧ '/' ∉ a := by
  induction u with
  | nil => left; simp
  | cons c t ih =>
    by_cases hc : c = '/'
    · right; exact ⟨[], t, by rw [hc]; rfl, by simp⟩
    · rcases ih with h | ⟨a, v, rfl, ha⟩
      · left
        intro hm
        rcases List.mem_cons.mp hm with h1 | h2
        · exact hc h1.symm
        · exact h h2
      · right
        refine ⟨c :: a, v, rfl, ?_⟩
        intro hm
        rcases List.mem_cons.mp hm with h1 | h2
        · exact hc h1.symm
        · exact ha h2

theorem subSegs_splitSlash_eq :
    ∀ (u : List Char), hasDoubleSlash u = false → (∀ w, u ≠ '/' :: w) →
      subSegs false (splitSlash u) = splitSlash u
  | u, hds, hh => by
    rcases firstSlashDecomp u with h | ⟨a, v, hu, ha⟩
    · rw [splitSlash_eq_single h]
      simp [subSegs]
    · cases a with
      | nil => exact absurd (by simpa using hu) (hh v)
      | cons c t =>
        subst hu
        rw [splitSlash_append v ha]
        have hne : (c :: t).isEmpty = false := rfl
        have hdv : hasDoubleSlash v = false :=
          hasDoubleSlash_tail (hasDoubleSlash_append_right (a := c :: t) hds)
        have hhv : ∀ w, v ≠ '/' :: w :=
          hasDoubleSlash_slash_cons (hasDoubleSlash_append_right (a := c :: t) hds)
        have ih := subSegs_splitSlash_eq v hdv hhv
        simp only [subSegs, hne, ih]
        rfl
termination_by u => u.length
decreasing_by
  rw [hu]
  simp only [List.length_append, List.length_cons]
  omega

theorem joinSlash_cons_splitSlash (x t2 : List Char) :
    joinSlash (x :: splitSlash t2) = x ++ '/' :: t2 := by
  cases h : splitSlash t2 with
  | nil => exact absurd h (splitSlash_ne_nil t2)
  | cons s ss =>
    rw [joinSlash_cons_cons, ← h, joinSlash_splitSlash]

/-- C7 (amended): on a URL `scheme ++ "//" ++ host ++ tail` whose tail
is empty or a slash-led path/query containing no further `"//"`,
`sanitize_host_name` rewrites underscores to hyphens exactly in the host
segment when the host contains an underscore, and returns the URL
unchanged otherwise — the tail is never touched.  (The unamended claim,
quantified over all URL strings, fails when the path itself contains
`"//"`: see the counterexample.) -/
theorem c7_host_normalization (scheme host tail : List Char)
    (hs : '/' ∉ scheme) (hh : host ≠ []) (hhn : '/' ∉ host)
    (ht : tail = [] ∨ ∃ t2, tail = '/' :: t2)
    (hds : hasDoubleSlash tail = false) :
    sanitize_host_name (scheme ++ '/' :: '/' :: (host ++ tail)) =
      if '_' ∈ host then scheme ++ '/' :: '/' :: (host.map repl ++ tail)
      else scheme ++ '/' :: '/' :: (host ++ tail) := by
  rcases ht with rfl | ⟨t2, rfl⟩
  · have hsegs : splitSlash (scheme ++ '/' :: '/' :: (host ++ []))
        = scheme :: [] :: [host] := by
      rw [splitSlash_append _ hs, splitSlash_cons_slash, List.append_nil,
        splitSlash_eq_single hhn]
    rw [sanitize_eq_of_split hsegs]
    have hfm : firstMatchSegs (List.isEmpty ([] : List Char)) [host] = some host := by
      simp [firstMatchSegs, hh]
    simp only [hfm]
    by_cases hu : '_' ∈ host
    · rw [if_pos hu, if_pos hu]
      have hsub : subSegs (List.isEmpty ([] : List Char)) [host] = [host.map repl] := by
        simp [subSegs, hh]
      rw [hsub, joinSlash_cons_cons]
      simp [joinSlash]
    · rw [if_neg hu, if_neg hu]
  · have hsegs : splitSlash (scheme ++ '/' :: '/' :: (host ++ '/' :: t2))
        = scheme :: [] :: host :: splitSlash t2 := by
      rw [splitSlash_append _ hs, splitSlash_cons_slash, splitSlash_append _ hhn]
    rw [sanitize_eq_of_split hsegs]
    have hfm : firstMatchSegs (List.isEmpty ([] : List Char)) (host :: splitSlash t2)
        = some host := by
      simp [firstMatchSegs, hh]
    simp only [hfm]
    by_cases hu : '_' ∈ host
    · rw [if_pos hu, if_pos hu]
      have hdt2 : hasDoubleSlash t2 = false := hasDoubleSlash_tail hds
      have hht2 : ∀ w, t2 ≠ '/' :: w := hasDoubleSlash_slash_cons hds
      have hhe : host.isEmpty = false := by
        cases host with
        | nil => exact absurd rfl hh
        | cons a l => rfl
      have hsub : subSegs (List.isEmpty ([] : List Char)) (host :: splitSlash t2)
          = host.map repl :: splitSlash t2 := by
        simp only [subSegs, List.isEmpty_nil]
        rw [if_pos ⟨trivial, hh⟩, hhe, subSegs_splitSlash_eq t2 hdt2 hht2]
      rw [hsub, joinSlash_cons_cons]
      have hj : joinSlash ([] :: List.map repl host :: splitSlash t2)
          = [] ++ '/' :: joinSlash (List.map repl host :: splitSlash t2) :=
        joinSlash_cons_cons [] (List.map repl host) (splitSlash t2)
      rw [hj, joinSlash_cons_splitSlash, List.nil_append]
    · rw [if_neg hu, if_neg hu]

/-- C7: counterexample to the unamended claim.  On
`"https://my_host/a//path_x"` the normalisation rewrites the path
segment `path_x` (which follows the `"//"` inside the path) to
`path-x`, so path segments are not left unchanged. -/
theorem c7_counterexample :
    sanitize_host_name ("https://my_host/a//path_x".toList)
        = "https://my-host/a//path-x".toList
    ∧ "https://my-host/a//path-x".toList ≠ "https://my-host/a//path_x".toList := by
  constructor
  · decide
  · decide

/-- C7 witness: the amended statement applied to the spec's own example
`normalize("https://my_host.example.com/api") =
"https://my-host.example.com/api"`. -/
theorem c7_host_normalization_witness :
    sanitize_host_name ("https:".toList ++ '/' :: '/' ::
        ("my_host.example.com".toList ++ "/api".toList)) =
      if '_' ∈ "my_host.example.com".toList then
        "https:".toList ++ '/' :: '/' ::
          (("my_host.example.com".toList).map repl ++ "/api".toList)
      else "https:".toList ++ '/' :: '/' ::
        ("my_host.example.com".toList ++ "/api".toList) :=
  c7_host_normalization "https:".toList "my_host.example.com".toList "/api".toList
    (by decide) (by decide) (by decide) (Or.inr ⟨"api".toList, rfl⟩) (by decide)

/-- C9: `sanitize_host_name` is idempotent; consequently the in-place
re-normalisation `self.analyst_endpoint =
self.sanitize_host_name(self.analyst_endpoint)` performed on every
`answer` call leaves the stored endpoint unchanged after the first
call. -/
theorem c9_sanitize_idempotent :
    (∀ url : List Char,
       sanitize_host_name (sanitize_host_name url) = sanitize_host_name url)
    ∧ ∀ (http1 http2 : AnalystRequest → HttpResponse) (tok1 tok2 : String)
        (self : Cortlayst) (q1 q2 : String),
        (Cortlayst.answer http2 tok2 (Cortlayst.answer http1 tok1 self q1).state q2).state.analyst_endpoint
          = (Cortlayst.answer http1 tok1 self q1).state.analyst_endpoint := by
  refine ⟨sanitize_host_name_idem, ?_⟩
  intro http1 http2 tok1 tok2 self q1 q2
  show sanitize_host_name (sanitize_host_name self.analyst_endpoint)
      = sanitize_host_name self.analyst_endpoint
  exact sanitize_host_name_idem self.analyst_endpoint

/-! ## Lemmas and claims on the response dispatcher -/

theorem show_response_cons_not_sql (execQ : String → Except String Frame)
    (chart : Frame → Option String) (i : Item) (rest : List Item)
    (h : ¬i.itype = "sql") :
    show_response execQ chart (i :: rest) = show_response execQ chart rest := by
  simp only [show_response, if_neg h]

theorem show_response_cons_sql_congr (execQ : String → Except String Frame)
    (chart : Frame → Option String) (i : Item) (rest rest2 : List Item)
    (h : i.itype = "sql")
    (ht : show_response execQ chart rest = show_response execQ chart rest2) :
    show_response execQ chart (i :: rest) = show_response execQ chart (i :: rest2) := by
  simp only [show_response, if_pos h]
  cases execQ i.statement with
  | error e => rfl
  | ok df =>
    by_cases hc : 1 < df.cols.length
    · simp only [if_pos hc]
      cases chart df with
      | some e => rfl
      | none => rw [ht]
    · simp only [if_neg hc]
      rw [ht]

theorem show_response_no_sayText (execQ : String → Except String Frame)
    (chart : Frame → Option String) (items : List Item) (t : String) :
    Event.sayText t ∉ (show_response execQ chart items).events := by
  induction items with
  | nil => simp [show_response]
  | cons i rest ih =>
    by_cases h : i.itype = "sql"
    · simp only [show_response, if_pos h]
      cases execQ i.statement with
      | error e => simp
      | ok df =>
        by_cases hc : 1 < df.cols.length
        · simp only [if_pos hc]
          cases chart df with
          | some e => simp
          | none => simp [ih]
        · simp only [if_neg hc]
          simp [ih]
    · rw [show_response_cons_not_sql execQ chart i rest h]
      exact ih

/-- C1 (amended): the dispatcher ignores every block whose discriminator
is not `"sql"` — the `match` has only the `"sql"` arm and a catch-all
`pass`, so text blocks are silently dropped.  Dispatching any envelope
is identical to dispatching only its sql blocks, and no dispatch trace
ever contains a text emission. -/
theorem c1_text_blocks_ignored :
    (∀ (execQ : String → Except String Frame) (chart : Frame → Option String)
       (items : List Item),
       show_response execQ chart items
         = show_response execQ chart (items.filter (fun i => i.itype = "sql")))
    ∧ ∀ (execQ : String → Except String Frame) (chart : Frame → Option String)
        (items : List Item) (t : String),
        Event.sayText t ∉ (show_response execQ chart items).events := by
  constructor
  · intro execQ chart items
    induction items with
    | nil => rfl
    | cons i rest ih =>
      by_cases h : i.itype = "sql"
      · rw [List.filter_cons_of_pos (by simpa using h)]
        exact show_response_cons_sql_congr execQ chart i rest _ h ih
      · rw [List.filter_cons_of_neg (by simpa using h),
          show_response_cons_not_sql execQ chart i rest h]
        exact ih
  · intro execQ chart items t
    exact show_response_no_sayText execQ chart items t

/-- C1: counterexample to the unamended claim.  An envelope holding one
text block (`"hello"`) and one sql block produces only the sql-derived
events; the text of the TextBlock is never forwarded to the output
collaborator. -/
theorem c1_counterexample :
    (show_response (fun _ => .ok ⟨["A"], []⟩) (fun _ => none)
        [⟨"text", "hello", ""⟩, ⟨"sql", "", "SELECT 1"⟩]).events
      = [.saySql "SELECT 1", .execSql "SELECT 1", .sayDf ⟨["A"], []⟩]
    ∧ Event.sayText "hello" ∉
        (show_response (fun _ => .ok ⟨["A"], []⟩) (fun _ => none)
          [⟨"text", "hello", ""⟩, ⟨"sql", "", "SELECT 1"⟩]).events := by
  constructor
  · rfl
  · decide

/-- C5 (amended): a failure in chart construction or upload does NOT
let processing continue: the exception escapes the per-envelope `try`,
is logged and re-raised, and dispatch aborts — the remaining blocks of
the envelope contribute nothing (the result is independent of
`rest`). -/
theorem c5_chart_failure_aborts (execQ : String → Except String Frame)
    (chart : Frame → Option String) (i : Item) (rest : List Item)
    (df : Frame) (m : String) (hi : i.itype = "sql")
    (he : execQ i.statement = .ok df) (hc : 1 < df.cols.length)
    (hm : chart df = some m) :
    show_response execQ chart (i :: rest)
      = ⟨[.saySql i.statement, .execSql i.statement, .sayDf df, .chartAttempt df],
          some ("Error sending response " ++ m)⟩ := by
  simp only [show_response, if_pos hi, he, if_pos hc, hm]

/-- C5: counterexample to the unamended claim.  With a two-sql-block
envelope where the chart step of the first block fails, dispatch stops:
the second block is never shown or executed, and the failure is
re-raised rather than merely reported. -/
theorem c5_counterexample :
    show_response (fun _ => .ok ⟨["A", "B"], []⟩) (fun _ => some "boom")
        [⟨"sql", "", "Q1"⟩, ⟨"sql", "", "Q2"⟩]
      = ⟨[.saySql "Q1", .execSql "Q1", .sayDf ⟨["A", "B"], []⟩,
            .chartAttempt ⟨["A", "B"], []⟩],
          some "Error sending response boom"⟩
    ∧ Event.saySql "Q2" ∉
        (show_response (fun _ => .ok ⟨["A", "B"], []⟩) (fun _ => some "boom")
          [⟨"sql", "", "Q1"⟩, ⟨"sql", "", "Q2"⟩]).events := by
  constructor
  · rfl
  · decide

/-- C5 witness: the amended statement at a concrete envelope — the
chart failure on the first block yields exactly the four first-block
events and an error, with a second block pending that is never
reached. -/
theorem c5_chart_failure_aborts_witness :
    show_response (fun _ => .ok ⟨["X", "Y"], []⟩) (fun _ => some "no TICKET_COUNT")
        [⟨"sql", "", "SELECT 1"⟩, ⟨"sql", "", "SELECT 2"⟩]
      = ⟨[.saySql "SELECT 1", .execSql "SELECT 1", .sayDf ⟨["X", "Y"], []⟩,
            .chartAttempt ⟨["X", "Y"], []⟩],
          some ("Error sending response " ++ "no TICKET_COUNT")⟩ :=
  c5_chart_failure_aborts (fun _ => .ok ⟨["X", "Y"], []⟩)
    (fun _ => some "no TICKET_COUNT") ⟨"sql", "", "SELECT 1"⟩
    [⟨"sql", "", "SELECT 2"⟩] ⟨["X", "Y"], []⟩ "no TICKET_COUNT"
    rfl rfl (by decide) rfl

/-- C6: per-sql-block protocol of the dispatcher.  For a sql block at
the head of the remaining envelope: the raw statement is emitted
strictly before execution (the first two events, also when execution
fails); on success the tabular result is rendered next; chart
construction and upload are attempted if and only if the result has
more than one column, exactly once per block (the block contributes
exactly three events — none chart-related — when the result has at most
one column, and exactly one `chartAttempt` otherwise). -/
theorem c6_sql_block_protocol (execQ : String → Except String Frame)
    (chart : Frame → Option String) (i : Item) (rest : List Item)
    (hi : i.itype = "sql") :
    ((show_response execQ chart (i :: rest)).events.take 2
        = [.saySql i.statement, .execSql i.statement])
    ∧ (∀ m, execQ i.statement = .error m →
        show_response execQ chart (i :: rest)
          = ⟨[.saySql i.statement, .execSql i.statement],
              some ("Error sending response " ++ m)⟩)
    ∧ (∀ df, execQ i.statement = .ok df → df.cols.length ≤ 1 →
        show_response execQ chart (i :: rest)
          = ⟨[.saySql i.statement, .execSql i.statement, .sayDf df]
                ++ (show_response execQ chart rest).events,
              (show_response execQ chart rest).error⟩)
    ∧ (∀ df, execQ i.statement = .ok df → 1 < df.cols.length →
        (∀ m, chart df = some m →
          show_response execQ chart (i :: rest)
            = ⟨[.saySql i.statement, .execSql i.statement, .sayDf df, .chartAttempt df],
                some ("Error sending response " ++ m)⟩)
        ∧ (chart df = none →
          show_response execQ chart (i :: rest)
            = ⟨[.saySql i.statement, .execSql i.statement, .sayDf df, .chartAttempt df,
                  .chartUpload df] ++ (show_response execQ chart rest).events,
                (show_response execQ chart rest).error⟩)) := by
  refine ⟨?_, ?_, ?_, ?_⟩
  · simp only [show_response, if_pos hi]
    cases execQ i.statement with
    | error e => rfl
    | ok df =>
      by_cases hc : 1 < df.cols.length
      · simp only [if_pos hc]
        cases chart df with
        | some e => rfl
        | none => rfl
      · simp only [if_neg hc]
        rfl
  · intro m hm
    simp only [show_response, if_pos hi, hm]
  · intro df hdf hcols
    have hc : ¬1 < df.cols.length := by omega
    simp only [show_response, if_pos hi, hdf, if_neg hc]
  · intro df hdf hcols
    constructor
    · intro m hm
      simp only [show_response, if_pos hi, hdf, if_pos hcols, hm]
    · intro hm
      simp only [show_response, if_pos hi, hdf, if_pos hcols, hm]

/-- C6 witness: the protocol applied to a concrete one-block envelope
with a two-column result and a succeeding chart pipeline: the block
yields exactly statement emission, execution, rendering, one chart
attempt and one upload. -/
theorem c6_sql_block_protocol_witness :
    show_response (fun _ => .ok ⟨["TICKET_COUNT", "SERVICE_TYPE"], []⟩)
        (fun _ => none) [⟨"sql", "", "SELECT 1"⟩]
      = ⟨[.saySql "SELECT 1", .execSql "SELECT 1",
            .sayDf ⟨["TICKET_COUNT", "SERVICE_TYPE"], []⟩,
            .chartAttempt ⟨["TICKET_COUNT", "SERVICE_TYPE"], []⟩,
            .chartUpload ⟨["TICKET_COUNT", "SERVICE_TYPE"], []⟩], none⟩ := by
  have h := ((c6_sql_block_protocol (fun _ => .ok ⟨["TICKET_COUNT", "SERVICE_TYPE"], []⟩)
      (fun _ => none) ⟨"sql", "", "SELECT 1"⟩ [] rfl).2.2.2
      ⟨["TICKET_COUNT", "SERVICE_TYPE"], []⟩ rfl (by decide)).2 rfl
  exact h

/-! ## Lemmas and claims on the analyst client and asking pipeline -/

theorem answer_requests (http : AnalystRequest → HttpResponse) (token : String)
    (self : Cortlayst) (question : String) :
    (Cortlayst.answer http token self question).requests
      = [answerReq token self question] := rfl

theorem ask_eq (http : AnalystRequest → HttpResponse) (token : String)
    (execQ : String → Except String Frame) (chart : Frame → Option String)
    (cort : Cortlayst) (question : String) :
    ask_cortex_analyst http token execQ chart cort question
      = if (http (answerReq token cort question)).status = 200 then
          ⟨sanitize_question question, [answerReq token cort question],
            some (show_response execQ chart
              ((http (answerReq token cort question)).content)), none⟩
        else
          ⟨sanitize_question question, [answerReq token cort question], none,
            some ⟨(http (answerReq token cort question)).status,
              (http (answerReq token cort question)).requestId,
              (http (answerReq token cort question)).body⟩⟩ := by
  by_cases hc : (http (answerReq token cort question)).status = 200
  · simp only [ask_cortex_analyst, Cortlayst.answer, if_pos hc]
  · simp only [ask_cortex_analyst, Cortlayst.answer, if_neg hc]

/-- C3 (amended): `Cortlayst.answer` performs no question validation at
all — every question, the empty and whitespace-only ones included, is
transmitted verbatim in exactly one HTTP POST, and no exception is
raised before the network call. -/
theorem c3_no_question_validation (http : AnalystRequest → HttpResponse)
    (token : String) (self : Cortlayst) (question : String) :
    (Cortlayst.answer http token self question).requests.length = 1
    ∧ (Cortlayst.answer http token self question).requests.map
        AnalystRequest.questionText = [question] := ⟨rfl, rfl⟩

/-- C3: counterexample.  `answer("")` and `answer("   ")` do not raise
before network activity: each issues exactly one HTTP POST (not zero)
and, with a 200 stub, returns normally — there is no empty-question
guard in the code. -/
theorem c3_counterexample :
    (Cortlayst.answer (fun _ => ⟨200, "", none, []⟩) "tok"
        (Cortlayst.init "h.example.com".toList) "").requests.length = 1
    ∧ (Cortlayst.answer (fun _ => ⟨200, "", none, []⟩) "tok"
        (Cortlayst.init "h.example.com".toList) "").result = .ok ([], none)
    ∧ (Cortlayst.answer (fun _ => ⟨200, "", none, []⟩) "tok"
        (Cortlayst.init "h.example.com".toList) "   ").requests.length = 1 := by
  exact ⟨rfl, rfl, rfl⟩

/-- C2: the sanitised question (`" ".join(question.splitlines())`,
app.py 427) is computed — and for `"line one\nline two"` it equals
`"line one line two"` — but `answer` is called with the original
`question` (app.py 449), so the text actually transmitted in the request
body still contains the line break.  The computed value and the
transmitted value differ: the sanitisation is dead code. -/
theorem c2_newline_not_collapsed :
    (ask_cortex_analyst (fun _ => ⟨200, "", none, []⟩) "tok"
        (fun _ => .error "engine") (fun _ => none)
        (Cortlayst.init "h.example.com".toList)
        "line one\nline two").requests.map AnalystRequest.questionText
      = ["line one\nline two"]
    ∧ (ask_cortex_analyst (fun _ => ⟨200, "", none, []⟩) "tok"
        (fun _ => .error "engine") (fun _ => none)
        (Cortlayst.init "h.example.com".toList)
        "line one\nline two").sanitized = "line one line two"
    ∧ sanitize_question "line one\nline two" = "line one line two"
    ∧ ("line one\nline two" : String) ≠ "line one line two" := by
  refine ⟨rfl, ?_, ?_, by decide⟩
  · rw [ask_eq, if_pos (show (200 : Nat) = 200 from rfl)]
    decide
  · decide

/-- C4: on any non-200 response the client raises an exception carrying
the status, the `X-Snowflake-Request-Id` trace header and the body
verbatim; all non-200 statuses take the same single branch with no
retry (exactly one POST is issued), and neither the analytics engine
nor the output collaborator is ever invoked for that request
(`show_response` never runs). -/
theorem c4_non200_uniform_failure (http : AnalystRequest → HttpResponse)
    (token : String) (execQ : String → Except String Frame)
    (chart : Frame → Option String) (cort : Cortlayst) (question : String)
    (r : AnalystRequest)
    (hr : (ask_cortex_analyst http token execQ chart cort question).requests = [r])
    (hs : (http r).status ≠ 200) :
    (ask_cortex_analyst http token execQ chart cort question).raised
        = some ⟨(http r).status, (http r).requestId, (http r).body⟩
    ∧ (ask_cortex_analyst http token execQ chart cort question).dispatched = none
    ∧ (ask_cortex_analyst http token execQ chart cort question).requests.length = 1 := by
  have hreq : r = answerReq token cort question := by
    rw [ask_eq] at hr
    by_cases hc : (http (answerReq token cort question)).status = 200
    · rw [if_pos hc] at hr
      exact ((List.cons_eq_cons.mp hr).1).symm
    · rw [if_neg hc] at hr
      exact ((List.cons_eq_cons.mp hr).1).symm
  subst hreq
  rw [ask_eq, if_neg hs]
  exact ⟨rfl, rfl, rfl⟩

/-- C4 witness: the spec's failure scenario — a stub returning
HTTP 503 with body `"overloaded"` and a trace id.  The pipeline raises
with status 503, the trace id and the body verbatim, dispatches
nothing, and issues exactly one POST. -/
theorem c4_non200_uniform_failure_witness :
    (ask_cortex_analyst (fun _ => ⟨503, "overloaded", some "trace-1", []⟩) "tok"
        (fun _ => .error "engine") (fun _ => none)
        (Cortlayst.init "h.example.com".toList) "how many tickets?").raised
      = some ⟨503, some "trace-1", "overloaded"⟩
    ∧ (ask_cortex_analyst (fun _ => ⟨503, "overloaded", some "trace-1", []⟩) "tok"
        (fun _ => .error "engine") (fun _ => none)
        (Cortlayst.init "h.example.com".toList) "how many tickets?").dispatched = none
    ∧ (ask_cortex_analyst (fun _ => ⟨503, "overloaded", some "trace-1", []⟩) "tok"
        (fun _ => .error "engine") (fun _ => none)
        (Cortlayst.init "h.example.com".toList) "how many tickets?").requests.length
      = 1 :=
  c4_non200_uniform_failure (fun _ => ⟨503, "overloaded", some "trace-1", []⟩)
    "tok" (fun _ => .error "engine") (fun _ => none)
    (Cortlayst.init "h.example.com".toList) "how many tickets?"
    (answerReq "tok" (Cortlayst.init "h.example.com".toList) "how many tickets?")
    rfl (by decide)

/-! ## Claims on `load_rsa_public_key` -/

/-- C10: for every argument of Python type `str` (raw PEM text rather
than a `Path` or `bytes`), `load_rsa_public_key` raises `TypeError`
from the `bytes(key)` conversion (which sits outside the `try`) and
never returns a key; only `Path` or `bytes` arguments can succeed. -/
theorem c10_str_raises_type_error :
    (∀ (fs : String → Option (List Nat)) (parsePem : List Nat → PemResult) (s : String),
       load_rsa_public_key fs parsePem (.str s)
         = .error (.typeError "string argument without an encoding"))
    ∧ ∀ (fs : String → Option (List Nat)) (parsePem : List Nat → PemResult)
        (src : KeySource) (k : RSAPublicKey),
        load_rsa_public_key fs parsePem src = .ok k → ∀ s, src ≠ .str s := by
  constructor
  · intro fs parsePem s
    rfl
  · intro fs parsePem src k h s hsrc
    subst hsrc
    simp [load_rsa_public_key] at h

/-- C10 witness: a `bytes` source parsed as an RSA key succeeds (so the
success-implies-not-str clause applies and is discharged concretely),
while the `str` clause holds by the theorem at a concrete string. -/
theorem c10_str_raises_type_error_witness :
    load_rsa_public_key (fun _ => none) (fun _ => .rsa ⟨65537, 3⟩) (.bytes [1, 2])
        = .ok ⟨65537, 3⟩
    ∧ KeySource.bytes [1, 2] ≠ KeySource.str "-----BEGIN PUBLIC KEY-----"
    ∧ load_rsa_public_key (fun _ => none) (fun _ => .rsa ⟨65537, 3⟩)
        (.str "-----BEGIN PUBLIC KEY-----")
        = .error (.typeError "string argument without an encoding") :=
  ⟨rfl,
   c10_str_raises_type_error.2 (fun _ => none) (fun _ => .rsa ⟨65537, 3⟩)
     (.bytes [1, 2]) ⟨65537, 3⟩ rfl "-----BEGIN PUBLIC KEY-----",
   c10_str_raises_type_error.1 (fun _ => none) (fun _ => .rsa ⟨65537, 3⟩)
     "-----BEGIN PUBLIC KEY-----"⟩

/-! ## Lemmas on base-256 digits and the DER round trip -/

theorem bytesToNatBE_append_singleton (l : List Nat) (b : Nat) :
    bytesToNatBE (l ++ [b]) = bytesToNatBE l * 256 + b := by
  simp [bytesToNatBE, List.foldl_append]

theorem bytesToNatBE_natBytesBE (n : Nat) : bytesToNatBE (natBytesBE n) = n := by
  induction n using Nat.strong_induction_on with
  | _ n ih =>
    cases n with
    | zero => simp [natBytesBE, bytesToNatBE]
    | succ m =>
      rw [natBytesBE, bytesToNatBE_append_singleton,
        ih ((m + 1) / 256) (Nat.div_lt_self (Nat.succ_pos m) (by omega))]
      omega

theorem bytesToNatBE_cons_zero (l : List Nat) : bytesToNatBE (0 :: l) = bytesToNatBE l := by
  simp [bytesToNatBE]

theorem bytesToNatBE_intBytes (x : Nat) : bytesToNatBE (intBytes x) = x := by
  unfold intBytes
  by_cases h0 : x = 0
  · rw [if_pos h0, h0]; rfl
  · rw [if_neg h0]
    by_cases hb : 128 ≤ (natBytesBE x).headD 0
    · rw [if_pos hb, bytesToNatBE_cons_zero, bytesToNatBE_natBytesBE]
    · rw [if_neg hb, bytesToNatBE_natBytesBE]

theorem natBytesBE_ne_nil {n : Nat} (h : n ≠ 0) : natBytesBE n ≠ [] := by
  cases n with
  | zero => exact absurd rfl h
  | succ m =>
    rw [natBytesBE]
    simp

theorem parseLen_lenEnc (n : Nat) (rest : List Nat) :
    parseLen (lenEnc n ++ rest) = some (n, rest) := by
  unfold lenEnc
  by_cases h : n < 128
  · rw [if_pos h]
    simp [parseLen, h]
  · rw [if_neg h]
    have hne : natBytesBE n ≠ [] := natBytesBE_ne_nil (by omega)
    have hlen : 0 < (natBytesBE n).length := List.length_pos.mpr hne
    simp only [List.cons_append, parseLen]
    rw [if_neg (by omega)]
    have hk : 128 + (natBytesBE n).length - 128 = (natBytesBE n).length := by omega
    rw [hk, if_pos (by simp), List.take_left, List.drop_left, bytesToNatBE_natBytesBE]

theorem parseTLV_tlv (tag : Nat) (c rest : List Nat) :
    parseTLV tag (tlv tag c ++ rest) = some (c, rest) := by
  have h : tlv tag c ++ rest = tag :: (lenEnc c.length ++ (c ++ rest)) := by
    simp [tlv]
  rw [h]
  simp only [parseTLV, if_pos rfl, parseLen_lenEnc]
  rw [if_pos (show c.length ≤ (c ++ rest).length by simp)]
  rw [List.take_left, List.drop_left]
  simp

theorem parseInt_derInt (x : Nat) (rest : List Nat) :
    parseInt (derInt x ++ rest) = some (x, rest) := by
  unfold parseInt derInt
  rw [parseTLV_tlv]
  simp [bytesToNatBE_intBytes]

theorem parseTLV_tlv_nil (tag : Nat) (c : List Nat) :
    parseTLV tag (tlv tag c) = some (c, []) := by
  have := parseTLV_tlv tag c []
  rwa [List.append_nil] at this

theorem parseSPKI_derSPKI (k : RSAPublicKey) : parseSPKI (derSPKI k) = some k := by
  have h15 : rsaAlgId.length = 15 := rfl
  have htake : (rsaAlgId ++ tlv 3 (0 :: tlv 0x30 (derInt k.n ++ derInt k.e))).take 15
      = rsaAlgId := List.take_left' h15
  have hdrop : (rsaAlgId ++ tlv 3 (0 :: tlv 0x30 (derInt k.n ++ derInt k.e))).drop 15
      = tlv 3 (0 :: tlv 0x30 (derInt k.n ++ derInt k.e)) := List.drop_left' h15
  have hint : parseInt (derInt k.n ++ derInt k.e) = some (k.n, derInt k.e) :=
    parseInt_derInt k.n (derInt k.e)
  have hint2 : parseInt (derInt k.e) = some (k.e, []) := by
    have h := parseInt_derInt k.e []
    rwa [List.append_nil] at h
  unfold parseSPKI derSPKI
  simp [parseTLV_tlv_nil, htake, hdrop, hint, hint2]

theorem derSPKI_injective : Function.Injective derSPKI := by
  intro k1 k2 h
  have h1 := parseSPKI_derSPKI k1
  rw [h, parseSPKI_derSPKI k2] at h1
  exact (Option.some_inj.mp h1).symm

/-! ## Lemmas on the digest and its hexadecimal rendering -/

theorem wordBytes_length (x : Nat) : (wordBytes x).length = 4 := rfl

theorem wordBytes_lt (x : Nat) : ∀ b ∈ wordBytes x, b < 256 := by
  intro b hb
  simp only [wordBytes, List.mem_cons, List.not_mem_nil, or_false] at hb
  rcases hb with rfl | rfl | rfl | rfl <;> exact Nat.mod_lt _ (by norm_num)

theorem digestBytes_length (st : Sha256State) : (digestBytes st).length = 32 := by
  simp [digestBytes, wordBytes]

theorem digestBytes_lt (st : Sha256State) : ∀ b ∈ digestBytes st, b < 256 := by
  intro b hb
  simp only [digestBytes, List.mem_append] at hb
  rcases hb with ((((((h | h) | h) | h) | h) | h) | h) | h <;>
    exact wordBytes_lt _ b h

theorem sha256_length (m : List Nat) : (sha256 m).length = 32 :=
  digestBytes_length _

theorem sha256_lt (m : List Nat) : ∀ b ∈ sha256 m, b < 256 :=
  digestBytes_lt _

theorem bytesToNatBE_lt {l : List Nat} (h : ∀ b ∈ l, b < 256) :
    bytesToNatBE l < 256 ^ l.length := by
  induction l using List.reverseRecOn with
  | nil => simp [bytesToNatBE]
  | append_singleton xs x ih =>
    rw [bytesToNatBE_append_singleton]
    have hx : x < 256 := h x (by simp)
    have hxs : bytesToNatBE xs < 256 ^ xs.length :=
      ih (fun b hb => h b (List.mem_append_left _ hb))
    rw [List.length_append, List.length_cons, List.length_nil]
    rw [pow_succ]
    omega

theorem bytesToNatBE_inj :
    ∀ (l1 l2 : List Nat), l1.length = l2.length → (∀ b ∈ l1, b < 256) →
      (∀ b ∈ l2, b < 256) → bytesToNatBE l1 = bytesToNatBE l2 → l1 = l2 := by
  intro l1
  induction l1 using List.reverseRecOn with
  | nil =>
    intro l2 hl _ _ _
    exact (List.eq_nil_of_length_eq_zero hl.symm).symm
  | append_singleton xs x ih =>
    intro l2 hl hb1 hb2 hv
    induction l2 using List.reverseRecOn with
    | nil => simp at hl
    | append_singleton ys y _ =>
      rw [bytesToNatBE_append_singleton, bytesToNatBE_append_singleton] at hv
      have hx : x < 256 := hb1 x (by simp)
      have hy : y < 256 := hb2 y (by simp)
      have hxy : x = y ∧ bytesToNatBE xs = bytesToNatBE ys := by
        constructor <;> omega
      have hlen : xs.length = ys.length := by
        simp only [List.length_append, List.length_cons, List.length_nil] at hl
        omega
      have hxs : xs = ys :=
        ih ys hlen (fun b hb => hb1 b (List.mem_append_left _ hb))
          (fun b hb => hb2 b (List.mem_append_left _ hb)) hxy.2
      rw [hxs, hxy.1]

theorem hexChar_inj {m n : Nat} (hm : m < 16) (hn : n < 16)
    (h : hexChar m = hexChar n) : m = n := by
  interval_cases m <;> interval_cases n <;> first
    | rfl
    | (exfalso; revert h; decide)

theorem hexChar_is_hex {m : Nat} (hm : m < 16) :
    (hexChar m).isDigit ∨ ('a' ≤ hexChar m ∧ hexChar m ≤ 'f') := by
  interval_cases m <;> first
    | (left; decide)
    | (right; constructor <;> decide)

theorem toHexLower_cons (b : Nat) (l : List Nat) :
    toHexLower (b :: l) = hexChar (b / 16) :: hexChar (b % 16) :: toHexLower l := by
  simp [toHexLower]

theorem toHexLower_length (l : List Nat) : (toHexLower l).length = 2 * l.length := by
  induction l with
  | nil => rfl
  | cons b t ih =>
    rw [toHexLower_cons]
    simp only [List.length_cons, ih]
    omega

theorem toHexLower_mem_hex {l : List Nat} (h : ∀ b ∈ l, b < 256) :
    ∀ c ∈ toHexLower l, c.isDigit ∨ ('a' ≤ c ∧ c ≤ 'f') := by
  induction l with
  | nil => simp [toHexLower]
  | cons b t ih =>
    intro c hc
    rw [toHexLower_cons] at hc
    have hb : b < 256 := h b (List.mem_cons_self b t)
    rcases List.mem_cons.mp hc with rfl | hc2
    · exact hexChar_is_hex (by omega)
    · rcases List.mem_cons.mp hc2 with rfl | hc3
      · exact hexChar_is_hex (Nat.mod_lt _ (by norm_num))
      · exact ih (fun x hx => h x (List.mem_cons_of_mem b hx)) c hc3

theorem toHexLower_inj :
    ∀ (l1 l2 : List Nat), (∀ b ∈ l1, b < 256) → (∀ b ∈ l2, b < 256) →
      toHexLower l1 = toHexLower l2 → l1 = l2 := by
  intro l1
  induction l1 with
  | nil =>
    intro l2 _ _ h
    cases l2 with
    | nil => rfl
    | cons b t => rw [toHexLower_cons] at h; simp [toHexLower] at h
  | cons a t1 ih =>
    intro l2 hb1 hb2 h
    cases l2 with
    | nil => rw [toHexLower_cons] at h; simp [toHexLower] at h
    | cons b t2 =>
      rw [toHexLower_cons, toHexLower_cons] at h
      have ha : a < 256 := hb1 a (List.mem_cons_self a t1)
      have hb : b < 256 := hb2 b (List.mem_cons_self b t2)
      have h1 : hexChar (a / 16) = hexChar (b / 16) := (List.cons_eq_cons.mp h).1
      have hrest := (List.cons_eq_cons.mp h).2
      have h2 : hexChar (a % 16) = hexChar (b % 16) := (List.cons_eq_cons.mp hrest).1
      have h3 : toHexLower t1 = toHexLower t2 := (List.cons_eq_cons.mp hrest).2
      have e1 : a / 16 = b / 16 :=
        hexChar_inj (by omega) (by omega) h1
      have e2 : a % 16 = b % 16 :=
        hexChar_inj (Nat.mod_lt _ (by norm_num)) (Nat.mod_lt _ (by norm_num)) h2
      have : a = b := by omega
      rw [this, ih t2 (fun x hx => hb1 x (List.mem_cons_of_mem a hx))
        (fun x hx => hb2 x (List.mem_cons_of_mem b hx)) h3]

/-- RSA public keys (modulus–exponent pairs over unbounded naturals)
form an infinite type. -/
instance : Infinite RSAPublicKey :=
  Infinite.of_injective (fun n => ⟨n, 65537⟩)
    (fun a b h => by simpa using congrArg RSAPublicKey.n h)

/-- C8: counterexample to the distinctness clause as universally
stated.  The fingerprint ranges over the 2^256 possible SHA-256
digests while the key space is infinite, so by cardinality two distinct
RSA public keys share a fingerprint: the clause "loading two distinct
keys yields different fingerprints" is false as a universal statement
(it holds only with overwhelming probability, as the spec's §4.1
itself hedges). -/
theorem c8_counterexample :
    ¬ ∀ k1 k2 : RSAPublicKey, k1 ≠ k2 →
        get_key_fingerprint k1 ≠ get_key_fingerprint k2 := by
  intro h
  have hg : ∀ k : RSAPublicKey, bytesToNatBE (sha256 (derSPKI k)) < 256 ^ 32 := by
    intro k
    have hlt := bytesToNatBE_lt (sha256_lt (derSPKI k))
    rwa [sha256_length] at hlt
  obtain ⟨k1, k2, hne, heq⟩ :=
    Finite.exists_ne_map_eq_of_infinite
      (fun k : RSAPublicKey => (⟨bytesToNatBE (sha256 (derSPKI k)), hg k⟩ : Fin (256 ^ 32)))
  have hval : bytesToNatBE (sha256 (derSPKI k1)) = bytesToNatBE (sha256 (derSPKI k2)) :=
    congrArg Fin.val heq
  have hdig : sha256 (derSPKI k1) = sha256 (derSPKI k2) :=
    bytesToNatBE_inj _ _ (by rw [sha256_length, sha256_length])
      (sha256_lt _) (sha256_lt _) hval
  exact h k1 k2 hne (congrArg toHexLower hdig)

/-- C8 (amended): the fingerprint is the lowercase-hex SHA-256 digest
of the key's DER SubjectPublicKeyInfo encoding (64 lowercase-hex
characters) and is deterministic — equal keys yield equal fingerprints.
The DER encoding itself is injective, so any fingerprint collision
between distinct keys is a SHA-256 collision on distinct inputs; the
universal "distinct keys yield different fingerprints" holds only up to
SHA-256 collision resistance (and is refuted as a universal statement
by cardinality — see the counterexample). -/
theorem c8_fingerprint_sha256_der :
    (∀ k : RSAPublicKey,
       get_key_fingerprint k = toHexLower (sha256 (derSPKI k))
       ∧ (get_key_fingerprint k).length = 64
       ∧ ∀ c ∈ get_key_fingerprint k, c.isDigit ∨ ('a' ≤ c ∧ c ≤ 'f'))
    ∧ (∀ k1 k2 : RSAPublicKey, k1 = k2 →
        get_key_fingerprint k1 = get_key_fingerprint k2)
    ∧ (∀ k1 k2 : RSAPublicKey, derSPKI k1 = derSPKI k2 → k1 = k2)
    ∧ (∀ k1 k2 : RSAPublicKey,
        get_key_fingerprint k1 = get_key_fingerprint k2 →
        sha256 (derSPKI k1) = sha256 (derSPKI k2)) := by
  refine ⟨?_, ?_, ?_, ?_⟩
  · intro k
    refine ⟨rfl, ?_, ?_⟩
    · show (toHexLower (sha256 (derSPKI k))).length = 64
      rw [toHexLower_length, sha256_length]
    · exact toHexLower_mem_hex (sha256_lt _)
  · intro k1 k2 h
    rw [h]
  · intro k1 k2 h
    exact derSPKI_injective h
  · intro k1 k2 h
    exact toHexLower_inj _ _ (sha256_lt _) (sha256_lt _) h

/-- C8 witness: the amended statement applied at the concrete key
(n = 65537, e = 3), with each hypothesis discharged definitionally. -/
theorem c8_fingerprint_sha256_der_witness :
    (get_key_fingerprint ⟨65537, 3⟩).length = 64
    ∧ get_key_fingerprint ⟨65537, 3⟩ = get_key_fingerprint ⟨65537, 3⟩
    ∧ (⟨65537, 3⟩ : RSAPublicKey) = ⟨65537, 3⟩
    ∧ sha256 (derSPKI ⟨65537, 3⟩) = sha256 (derSPKI ⟨65537, 3⟩) :=
  ⟨(c8_fingerprint_sha256_der.1 ⟨65537, 3⟩).2.1,
   c8_fingerprint_sha256_der.2.1 ⟨65537, 3⟩ ⟨65537, 3⟩ rfl,
   c8_fingerprint_sha256_der.2.2.1 ⟨65537, 3⟩ ⟨65537, 3⟩ rfl,
   c8_fingerprint_sha256_der.2.2.2 ⟨65537, 3⟩ ⟨65537, 3⟩ rfl⟩

end SlackDemo
